import Mathlib

/-!
# Verification of the OpenChoreo Release reconciler and component context builder

This file gives a shallow embedding, in Lean 4, of the core algorithms of the
`internal/controller/release` package (steady-state reconcile, garbage
collection, finalization) and of the `internal/pipeline/component/context`
package (trait evaluation-context construction), together with theorems about
their behaviour.

Conventions:
* Go maps of labels (`map[string]string`) are modelled as association lists
  `List (String × String)`; `labelGet` mirrors Go's zero-value indexing
  (a missing key reads as `""`).
* Go `time.Duration` values are modelled as `Int` nanoseconds.
* Fallible Go functions returning `(T, error)` are modelled as
  `Except String T`.
-/

namespace OpenChoreo

/-- `schema.GroupVersionKind` from `k8s.io/apimachinery`. -/
structure GVK where
  group : String
  version : String
  kind : String
  deriving DecidableEq, Repr

/-- `ResourceStatus` entries recorded in `Release.Status.Resources`:
the status inventory of previously applied resources
({group, version, kind, resource-ID, name, namespace}). -/
structure ResourceStatus where
  group : String
  version : String
  kind : String
  id : String
  name : String
  ns : String
  deriving DecidableEq, Repr

/-- Label association list standing for a Go `map[string]string`. -/
abbrev Labels := List (String × String)

/-- Go map indexing `m[k]`: returns the zero value `""` when the key is absent. -/
def labelGet (ls : Labels) (k : String) : String :=
  match ls.find? (fun p => p.1 = k) with
  | some p => p.2
  | none => ""

/-- Go map assignment `m[k] = v` on the association-list model: overwrite the
key if present (all occurrences, keeping first-match lookup consistent),
otherwise append the new binding. -/
def labelSet (ls : Labels) (k v : String) : Labels :=
  if ls.any (fun p => p.1 = k) then
    ls.map (fun p => if p.1 = k then (k, v) else p)
  else
    ls ++ [(k, v)]

/-- A generic structured resource document (`unstructured.Unstructured`):
type identity, object identity and the label map.  The remaining payload
(`spec`, `data`, …) plays no role in the reconciler's algorithms. -/
structure Resource where
  gvk : GVK
  name : String
  ns : String
  labels : Labels
  deriving DecidableEq, Repr

/-! ## Ownership label keys (`internal/labels`)

The five keys the reconciler stamps on every managed resource, plus the audit
keys used on created namespaces.  The Go constants live in `internal/labels`;
their string values are opaque to every algorithm here, so we use the constant
names as values — all that matters is that the keys are pairwise distinct. -/

def LabelKeyManagedBy : String := "openchoreo.dev/managed-by"
def LabelKeyReleaseResourceID : String := "openchoreo.dev/release-resource-id"
def LabelKeyReleaseUID : String := "openchoreo.dev/release-uid"
def LabelKeyReleaseName : String := "openchoreo.dev/release-name"
def LabelKeyReleaseNamespace : String := "openchoreo.dev/release-namespace"

/-- `ControllerName` constant of the release controller. -/
def ControllerName : String := "release-controller"

/-! ## findAllKnownGVKs (`internal/controller/release/controller.go`) -/

/-- The fixed catalog of well-known, commonly-managed GVKs, exactly the
`wellKnownGVKs` literal inside `findAllKnownGVKs`. -/
def wellKnownGVKs : List GVK :=
  [ -- Core Kubernetes Resources
    ⟨"", "v1", "Service"⟩,
    ⟨"", "v1", "ConfigMap"⟩,
    ⟨"", "v1", "Secret"⟩,
    ⟨"", "v1", "ServiceAccount"⟩,
    ⟨"", "v1", "Namespace"⟩,
    ⟨"", "v1", "PersistentVolumeClaim"⟩,
    -- Apps
    ⟨"apps", "v1", "Deployment"⟩,
    ⟨"apps", "v1", "StatefulSet"⟩,
    -- Batch
    ⟨"batch", "v1", "Job"⟩,
    ⟨"batch", "v1", "CronJob"⟩,
    -- Autoscaling & Policy
    ⟨"autoscaling", "v2", "HorizontalPodAutoscaler"⟩,
    ⟨"policy", "v1", "PodDisruptionBudget"⟩,
    -- Networking
    ⟨"networking.k8s.io", "v1", "NetworkPolicy"⟩,
    ⟨"networking.k8s.io", "v1", "Ingress"⟩,
    -- RBAC
    ⟨"rbac.authorization.k8s.io", "v1", "Role"⟩,
    ⟨"rbac.authorization.k8s.io", "v1", "RoleBinding"⟩,
    ⟨"rbac.authorization.k8s.io", "v1", "ClusterRole"⟩,
    ⟨"rbac.authorization.k8s.io", "v1", "ClusterRoleBinding"⟩,
    -- Gateway API
    ⟨"gateway.networking.k8s.io", "v1", "HTTPRoute"⟩,
    ⟨"gateway.networking.k8s.io", "v1", "Gateway"⟩,
    -- Envoy Gateway
    ⟨"gateway.envoyproxy.io", "v1alpha1", "SecurityPolicy"⟩,
    ⟨"gateway.envoyproxy.io", "v1alpha1", "BackendTrafficPolicy"⟩,
    ⟨"gateway.envoyproxy.io", "v1alpha1", "HTTPRouteFilter"⟩,
    -- Third-party CRDs
    ⟨"cilium.io", "v2", "CiliumNetworkPolicy"⟩,
    ⟨"secrets-store.csi.x-k8s.io", "v1", "SecretProviderClass"⟩ ]

/-- Insertion into a Go map-used-as-set (`set[x] = true`):
adding an already-present key leaves the key set unchanged. -/
def insertIfNew {α : Type} [DecidableEq α] (s : List α) (a : α) : List α :=
  if a ∈ s then s else s ++ [a]

/-- Insertion into the `gvkSet` map-used-as-set (`gvkSet[gvk] = true`). -/
def insertGVK (s : List GVK) (g : GVK) : List GVK :=
  insertIfNew s g

/-- `findAllKnownGVKs(desiredResources, appliedResources)`.

Faithful to the Go control flow, including its ordering slip: the function
(1) inserts the GVKs of the desired resources into `gvkSet`,
(2) inserts the GVKs of the status inventory into `gvkSet`,
(3) converts `gvkSet` to the slice `gvks`,
(4) inserts the well-known catalog into `gvkSet`, and then
returns `gvks` — the slice built at step (3), before the catalog was added. -/
def findAllKnownGVKs (desiredResources : List Resource)
    (appliedResources : List ResourceStatus) : List GVK :=
  let gvkSet := desiredResources.foldl (fun s o => insertGVK s o.gvk) []
  let gvkSet := appliedResources.foldl
    (fun s a => insertGVK s ⟨a.group, a.version, a.kind⟩) gvkSet
  -- `gvks := make(...); for gvk := range gvkSet { gvks = append(gvks, gvk) }`
  let gvks := gvkSet
  -- `for _, gvk := range wellKnownGVKs { gvkSet[gvk] = true }` — mutates the
  -- set only; the returned slice was already built from the set above.
  let _gvkSet := wellKnownGVKs.foldl insertGVK gvkSet
  gvks

/-! ## Release data model (`api/v1alpha1`, fields used by the reconciler) -/

/-- One entry of `Release.Spec.Resources`: a caller-assigned ID and the raw
resource document.  The document is modelled already decoded (the
`RawExtension` → `Unstructured` unmarshal step is the external JSON library). -/
structure ReleaseResource where
  id : String
  doc : Resource
  deriving DecidableEq, Repr

/-- The Release fields the reconciler reads.  `interval` and
`progressingInterval` are `Spec.Interval` / `Spec.ProgressingInterval`
(`*metav1.Duration`, nanoseconds, `none` = nil); `statusResources` is
`Status.Resources`, the inventory from previous passes. -/
structure Release where
  uid : String
  name : String
  ns : String
  environmentName : String
  resources : List ReleaseResource
  interval : Option Int
  progressingInterval : Option Int
  statusResources : List ResourceStatus
  deriving DecidableEq, Repr

/-! ## makeDesiredResources (`controller.go`) -/

/-- The loop body of `makeDesiredResources` for one spec entry: take the
document's labels (a nil map reads as empty) and assign the five ownership
labels in the source's order, overwriting whatever the raw document carried
under those keys. -/
def stampTrackingLabels (release : Release) (id : String) (obj : Resource) : Resource :=
  let resourceLabels := obj.labels
  let resourceLabels := labelSet resourceLabels LabelKeyManagedBy ControllerName
  let resourceLabels := labelSet resourceLabels LabelKeyReleaseResourceID id
  let resourceLabels := labelSet resourceLabels LabelKeyReleaseUID release.uid
  let resourceLabels := labelSet resourceLabels LabelKeyReleaseName release.name
  let resourceLabels := labelSet resourceLabels LabelKeyReleaseNamespace release.ns
  { obj with labels := resourceLabels }

/-- `makeDesiredResources(release)`: decode every spec entry and stamp the
tracking labels on it, in order. -/
def makeDesiredResources (release : Release) : List Resource :=
  release.resources.map (fun r => stampTrackingLabels release r.id r.doc)

/-! ## Apply, stale detection and deletion (`controller.go`) -/

/-- Two documents address the same cluster object (same GVK, name and
namespace). -/
def sameObject (a b : Resource) : Bool :=
  a.gvk == b.gvk && a.name == b.name && a.ns == b.ns

/-- Effect on the dataplane of one server-side apply with forced ownership:
the desired document replaces the live object of the same identity, or is
created if absent.  Re-applying identical content is a no-op. -/
def upsertResource (cluster : List Resource) (obj : Resource) : List Resource :=
  if cluster.any (fun r => sameObject r obj) then
    cluster.map (fun r => if sameObject r obj then obj else r)
  else
    cluster ++ [obj]

/-- `applyResources`: apply every desired document in order (all apply calls
succeeding). -/
def applyResources (cluster : List Resource) (resources : List Resource) : List Resource :=
  resources.foldl upsertResource cluster

/-- The loop building the `desiredResourceIDs` set in `findStaleResources`:
insert each desired document's resource-ID label, skipping empty IDs. -/
def desiredResourceIDsAux (s : List String) : List Resource → List String
  | [] => s
  | obj :: rest =>
    desiredResourceIDsAux
      (if labelGet obj.labels LabelKeyReleaseResourceID ≠ "" then
        insertIfNew s (labelGet obj.labels LabelKeyReleaseResourceID)
      else s) rest

/-- The `desiredResourceIDs` set built by `findStaleResources`: the
resource-ID labels of the desired documents, skipping empty IDs. -/
def desiredResourceIDs (desiredResources : List Resource) : List String :=
  desiredResourceIDsAux [] desiredResources

/-- `findStaleResources(liveResources, desiredResources)`: live resources
carrying a non-empty resource-ID label whose ID is not in the desired set. -/
def findStaleResources (liveResources desiredResources : List Resource) : List Resource :=
  let ids := desiredResourceIDs desiredResources
  liveResources.filter (fun liveObj =>
    let liveResourceID := labelGet liveObj.labels LabelKeyReleaseResourceID
    liveResourceID ≠ "" && !(ids.contains liveResourceID))

/-- The spec's stale set, following the claim's words: live resources whose
resource-ID label is absent from the current desired-ID set (no non-empty
proviso).  Kept separate from `findStaleResources` for comparison. -/
def claimedStaleResources (liveResources desiredResources : List Resource) : List Resource :=
  let ids := desiredResources.map (fun obj => labelGet obj.labels LabelKeyReleaseResourceID)
  liveResources.filter (fun liveObj =>
    !(ids.contains (labelGet liveObj.labels LabelKeyReleaseResourceID)))

/-- Effect on the dataplane of `deleteResources(staleResources)` when every
delete call succeeds: the listed objects are removed. -/
def deleteResources (cluster : List Resource) (staleResources : List Resource) : List Resource :=
  cluster.filter (fun r => !(staleResources.any (fun s => sameObject s r)))

/-! ## listLiveResourcesByGVKs (`controller.go`) -/

/-- One `dpClient.List` call for a single GVK, filtered by the label selector
{managed-by = release-controller, release-uid = this Release}. -/
def listOneGVK (cluster : List Resource) (uid : String) (gvk : GVK) : List Resource :=
  cluster.filter (fun r =>
    r.gvk == gvk
      && labelGet r.labels LabelKeyManagedBy == ControllerName
      && labelGet r.labels LabelKeyReleaseUID == uid)

/-- `listLiveResourcesByGVKs(dpClient, release, gvks)`.  `listFails` marks the
GVKs whose `List` call fails with a transient error; faithful to the source,
such a failure is logged and the loop `continue`s with the other GVKs.  The
only `return nil, err` in the source is label-selector construction
(`metav1.LabelSelectorAsSelector`), which cannot fail for the fixed
well-formed label keys used here, so the result is always `ok`. -/
def listLiveResourcesByGVKs (cluster : List Resource) (listFails : GVK → Bool)
    (uid : String) (gvks : List GVK) : Except String (List Resource) :=
  .ok (gvks.foldl (fun acc gvk =>
    if listFails gvk then acc else acc ++ listOneGVK cluster uid gvk) [])

/-! ## Requeue intervals (`controller.go`) -/

/-- `time.Duration(float64(baseInterval) * 0.2)`, the 20% jitter cap.  For
every `0 ≤ base < 2^53` the float computation truncates to exactly `base / 5`
(the relative error of the double `0.2` is below half an ulp of the product),
so the cap is modelled as integer division by 5.  For negative `base` the
two computations can differ by one, but both yield a non-positive cap, which
`addJitter` treats identically (it returns `base` unchanged). -/
def jitterCap20 (base : Int) : Int := base / 5

/-- `addJitter(base, maxJitter)`: adds `rand.Intn(maxJitter)` unless the cap
is non-positive.  The random draw is abstracted as `randIntn`; theorems
assume only its documented range `0 ≤ randIntn n < n` for `n > 0`. -/
def addJitter (base maxJitter : Int) (randIntn : Int → Int) : Int :=
  if maxJitter ≤ 0 then base else base + randIntn maxJitter

/-- `getStableRequeueInterval`: configured `Spec.Interval` or the 5 minute
default; a configured zero disables requeueing; otherwise 20% jitter is
added. -/
def getStableRequeueInterval (release : Release) (randIntn : Int → Int) : Int :=
  match release.interval with
  | none => addJitter (5 * 60 * 1000000000) (jitterCap20 (5 * 60 * 1000000000)) randIntn
  | some d => if d = 0 then 0 else addJitter d (jitterCap20 d) randIntn

/-- `getProgressingRequeueInterval`: configured `Spec.ProgressingInterval` or
the 10 second default; same zero-disables rule and 20% jitter. -/
def getProgressingRequeueInterval (release : Release) (randIntn : Int → Int) : Int :=
  match release.progressingInterval with
  | none => addJitter (10 * 1000000000) (jitterCap20 (10 * 1000000000)) randIntn
  | some d => if d = 0 then 0 else addJitter d (jitterCap20 d) randIntn

/-- The tail of `Reconcile` (lines 133–146): pick the progressing interval
when any tracked resource is transitioning, the stable interval otherwise.
`transitioning` stands for `hasTransitioningResources(release.Status.Resources)`,
whose definition is outside this package's sources; per the spec it is true
exactly when some tracked resource's condition is non-terminal. -/
def computeRequeueAfter (transitioning : Bool) (release : Release)
    (randIntn : Int → Int) : Int :=
  if transitioning then getProgressingRequeueInterval release randIntn
  else getStableRequeueInterval release randIntn

/-! ## Finalization (`controller_finalize.go`) -/

/-- The fixed requeue delay of the finalizer's retry step
(`ctrl.Result{RequeueAfter: time.Second * 5}`), in nanoseconds. -/
def finalizeRequeueDelayNs : Int := 5 * 1000000000

/-- The observable outcome of one `finalize` invocation. -/
inductive FinalizeStep where
  /-- The cleanup finalizer was not present: nothing to do. -/
  | noFinalizer : FinalizeStep
  /-- STEP 1: the Finalizing condition was newly set; the invocation persists
  it and returns before any cleanup work. -/
  | finalizingConditionSet : FinalizeStep
  /-- Dataplane client resolution, listing or deletion failed: a
  CleanupFailed condition is recorded and the error returned. -/
  | failed (msg : String) : FinalizeStep
  /-- STEP 5: live resources remained before deletion; requeue after the
  fixed delay. -/
  | requeue (afterNs : Int) : FinalizeStep
  /-- STEP 6: the cleanup finalizer was removed. -/
  | removedFinalizer : FinalizeStep
  deriving DecidableEq, Repr

/-- `finalize(ctx, old, release)` and its effect on the dataplane.

`finalizerPresent` is `ContainsFinalizer(release, DataPlaneCleanupFinalizer)`;
`finalizingConditionAlreadySet` tells whether `meta.SetStatusCondition` finds
the Finalizing condition already recorded (it returns `true`, triggering the
early return, exactly when the condition changed); `dpClientOk` is the outcome
of dataplane client resolution.  Delete calls are modelled as succeeding and
taking immediate effect; the source requeues whenever the pre-delete listing
was non-empty regardless of the delete outcomes. -/
def finalize (finalizerPresent finalizingConditionAlreadySet dpClientOk : Bool)
    (release : Release) (cluster : List Resource) (listFails : GVK → Bool) :
    FinalizeStep × List Resource :=
  if !finalizerPresent then (.noFinalizer, cluster)
  else if !finalizingConditionAlreadySet then (.finalizingConditionSet, cluster)
  else if !dpClientOk then (.failed "failed to get dataplane client for finalization", cluster)
  else
    -- STEP 3: probe with an empty desired set, so everything tracked is stale
    let gvks := findAllKnownGVKs [] release.statusResources
    match listLiveResourcesByGVKs cluster listFails release.uid gvks with
    | .error e => (.failed e, cluster)
    | .ok liveResources =>
      -- STEP 4: delete all live resources
      let cluster' := deleteResources cluster liveResources
      -- STEP 5: if any were listed, requeue for retry
      if liveResources.isEmpty then (.removedFinalizer, cluster')
      else (.requeue finalizeRequeueDelayNs, cluster')

/-! ## The steady-state reconcile pass (`Reconcile`, `controller.go`) -/

/-- Modelled from the spec: `updateStatus` (called by `Reconcile` but defined
outside this package's sources) persists "the new status inventory
(GVK/ID/name/namespace per desired document)" and reports whether the status
write changed observable state. -/
def inventoryOf (desiredResources : List Resource) : List ResourceStatus :=
  desiredResources.map (fun r =>
    ⟨r.gvk.group, r.gvk.version, r.gvk.kind,
     labelGet r.labels LabelKeyReleaseResourceID, r.name, r.ns⟩)

/-- Outcome of a successful steady-state reconcile invocation. -/
structure ReconcileOutcome where
  /-- Dataplane state at the end of the pass. -/
  cluster : List Resource
  /-- The status inventory after the pass. -/
  status : List ResourceStatus
  /-- `ctrl.Result.RequeueAfter` in nanoseconds (0 = no periodic requeue). -/
  requeueAfterNs : Int
  deriving DecidableEq, Repr

/-- The steady-state phases of `Reconcile` (after finalizer bookkeeping):
resolve the dataplane client, stamp the desired documents, apply them,
probe live resources, delete the stale ones, persist the inventory (with the
source's early return when the status write changed state), then compute the
requeue delay.  Apply and delete calls are modelled as succeeding;
`listFails` marks GVKs whose `List` call fails transiently, and
`transitioning` stands for `hasTransitioningResources` as in
`computeRequeueAfter`.  Namespace get-or-create (`ensureNamespaces`) touches
only Namespace objects not modelled as part of `cluster` and is omitted. -/
def steadyStateReconcile (dpClientOk : Bool) (release : Release)
    (cluster : List Resource) (listFails : GVK → Bool) (transitioning : Bool)
    (randIntn : Int → Int) : Except String ReconcileOutcome :=
  if !dpClientOk then .error "failed to get dataplane client" else
  let desiredResources := makeDesiredResources release
  -- PHASE 1: apply desired resources
  let clusterApplied := applyResources cluster desiredResources
  -- PHASE 2: discover live resources we manage
  let gvks := findAllKnownGVKs desiredResources release.statusResources
  match listLiveResourcesByGVKs clusterApplied listFails release.uid gvks with
  | .error e => .error e
  | .ok liveResources =>
    -- PHASE 3: find and delete stale resources
    let staleResources := findStaleResources liveResources desiredResources
    let clusterAfter := deleteResources clusterApplied staleResources
    -- PHASE 4: update the status inventory; return early if it changed
    let newStatus := inventoryOf desiredResources
    if newStatus ≠ release.statusResources then
      .ok ⟨clusterAfter, newStatus, 0⟩
    else
      .ok ⟨clusterAfter, newStatus, computeRequeueAfter transitioning release randIntn⟩

/-- Membership after set insertion. -/
theorem mem_insertIfNew {α : Type} [DecidableEq α] (s : List α) (x a : α) :
    a ∈ insertIfNew s x ↔ a ∈ s ∨ a = x := by
  unfold insertIfNew
  by_cases hx : x ∈ s
  · simp only [if_pos hx]
    constructor
    · exact fun h => Or.inl h
    · rintro (h | rfl) <;> [exact h; exact hx]
  · simp [if_neg hx]

/-- Membership after folding a guarded set insertion over a list: the result
holds the seed's elements plus exactly the inserted images. -/
theorem mem_foldl_insertIfNew {α β : Type} [DecidableEq α] (f : β → Option α)
    (l : List β) (s : List α) (a : α) :
    a ∈ l.foldl (fun s b => match f b with
      | some x => insertIfNew s x
      | none => s) s ↔ a ∈ s ∨ ∃ b ∈ l, f b = some a := by
  induction l generalizing s with
  | nil => simp
  | cons x xs ih =>
    rw [List.foldl_cons, ih]
    cases hx : f x with
    | none =>
      simp only [hx]
      constructor
      · rintro (h | ⟨b, hb, hfb⟩)
        · exact Or.inl h
        · exact Or.inr ⟨b, List.mem_cons_of_mem x hb, hfb⟩
      · rintro (h | ⟨b, hb, hfb⟩)
        · exact Or.inl h
        · rcases List.mem_cons.mp hb with rfl | hb
          · rw [hx] at hfb; cases hfb
          · exact Or.inr ⟨b, hb, hfb⟩
    | some v =>
      simp only [hx, mem_insertIfNew]
      constructor
      · rintro ((h | rfl) | ⟨b, hb, hfb⟩)
        · exact Or.inl h
        · exact Or.inr ⟨x, List.mem_cons_self x xs, hx⟩
        · exact Or.inr ⟨b, List.mem_cons_of_mem x hb, hfb⟩
      · rintro (h | ⟨b, hb, hfb⟩)
        · exact Or.inl (Or.inl h)
        · rcases List.mem_cons.mp hb with rfl | hb
          · rw [hx] at hfb
            exact Or.inl (Or.inr (Option.some.inj hfb).symm)
          · exact Or.inr ⟨b, hb, hfb⟩

/-- Membership in the returned probe set: a GVK is probed exactly when it
comes from a desired document or from the status inventory — the well-known
catalog never contributes (it is inserted into the set only after the
returned slice has been built). -/
theorem mem_findAllKnownGVKs (desired : List Resource)
    (applied : List ResourceStatus) (g : GVK) :
    g ∈ findAllKnownGVKs desired applied ↔
      (∃ o ∈ desired, o.gvk = g) ∨
      (∃ a ∈ applied, (⟨a.group, a.version, a.kind⟩ : GVK) = g) := by
  have h1 : ∀ (l : List Resource) (s : List GVK),
      l.foldl (fun s o => insertGVK s o.gvk) s =
        l.foldl (fun s b => match some b.gvk with
          | some x => insertIfNew s x
          | none => s) s := by
    intro l
    induction l with
    | nil => intro s; rfl
    | cons x xs ih => intro s; simp only [List.foldl_cons, ih]; rfl
  have h2 : ∀ (l : List ResourceStatus) (s : List GVK),
      l.foldl (fun s a => insertGVK s ⟨a.group, a.version, a.kind⟩) s =
        l.foldl (fun s b => match some (⟨b.group, b.version, b.kind⟩ : GVK) with
          | some x => insertIfNew s x
          | none => s) s := by
    intro l
    induction l with
    | nil => intro s; rfl
    | cons x xs ih => intro s; simp only [List.foldl_cons, ih]; rfl
  show g ∈ applied.foldl (fun s a => insertGVK s ⟨a.group, a.version, a.kind⟩)
      (desired.foldl (fun s o => insertGVK s o.gvk) []) ↔ _
  rw [h2, h1,
    mem_foldl_insertIfNew (fun a : ResourceStatus => some (⟨a.group, a.version, a.kind⟩ : GVK)),
    mem_foldl_insertIfNew (fun o : Resource => some o.gvk)]
  simp

/-! ## Label-map lemmas -/

/-- After overwriting key `k` in a map that contains it, the first match for
`k` is the new binding. -/
theorem find?_setmap_same (ls : Labels) (k v : String)
    (h : ls.any (fun p => p.1 = k) = true) :
    (ls.map (fun p => if p.1 = k then (k, v) else p)).find? (fun p => p.1 = k) =
      some (k, v) := by
  induction ls with
  | nil => simp at h
  | cons p rest ih =>
    by_cases hp : p.1 = k
    · simp [List.find?_cons, hp]
    · have h' : rest.any (fun p => p.1 = k) = true := by
        simpa [List.any_cons, hp] using h

      simp [List.find?_cons, hp, ih h']

/-- Overwriting key `k` does not change the first match for any other key. -/
theorem find?_setmap_ne (ls : Labels) (k v k' : String) (hne : k' ≠ k) :
    (ls.map (fun p => if p.1 = k then (k, v) else p)).find? (fun p => p.1 = k') =
      ls.find? (fun p => p.1 = k') := by
  induction ls with
  | nil => rfl
  | cons p rest ih =>
    simp only [List.map_cons, List.find?_cons]
    by_cases hp : p.1 = k
    · rw [if_pos hp]
      have h1 : decide (((k, v) : String × String).1 = k') = false := by
        simp [Ne.symm hne]
      have h2 : decide (p.1 = k') = false := by
        simp [hp, Ne.symm hne]
      simp only [h1, h2]
      exact ih
    · rw [if_neg hp]
      cases hq : decide (p.1 = k') with
      | true => simp only [hq]
      | false =>
        simp only [hq]
        exact ih

/-- Reading back the key just written. -/
theorem labelGet_labelSet_same (ls : Labels) (k v : String) :
    labelGet (labelSet ls k v) k = v := by
  unfold labelSet labelGet
  by_cases h : ls.any (fun p => p.1 = k)
  · rw [if_pos h, find?_setmap_same ls k v h]
  · rw [if_neg h, List.find?_append]
    have hnone : ls.find? (fun p => decide (p.1 = k)) = none := by
      rw [List.find?_eq_none]
      intro x hx hcontra
      exact h (List.any_eq_true.mpr ⟨x, hx, hcontra⟩)
    rw [hnone]
    simp [List.find?]

/-- Writing key `k` leaves every other key's value unchanged. -/
theorem labelGet_labelSet_ne (ls : Labels) (k v k' : String) (hne : k' ≠ k) :
    labelGet (labelSet ls k v) k' = labelGet ls k' := by
  unfold labelSet labelGet
  by_cases h : ls.any (fun p => p.1 = k)
  · rw [if_pos h, find?_setmap_ne ls k v k' hne]
  · rw [if_neg h, List.find?_append]
    have h2 : ([(k, v)].find? (fun p => decide (p.1 = k'))) = none := by
      simp [List.find?, Ne.symm hne]
    rw [h2]
    cases ls.find? (fun p => decide (p.1 = k')) with
    | some q => rfl
    | none => rfl

/-! ## Claim theorems: probe set (C1) -/

/-- C1: the probe set returned by `findAllKnownGVKs` is claimed to be the
union of the desired documents' GVKs, the status inventory's GVKs and the
fixed well-known catalog, with every catalog entry always present.  The code
contradicts this (and its own doc comment): the catalog is inserted into
`gvkSet` only after the returned slice has been built, so with no desired
documents and an empty status inventory the function returns no GVKs at all,
while the catalog contains, e.g., core/v1 ConfigMap. -/
theorem findAllKnownGVKs_drops_catalog :
    (⟨"", "v1", "ConfigMap"⟩ : GVK) ∈ wellKnownGVKs ∧
    findAllKnownGVKs [] [] = [] := by
  constructor
  · simp [wellKnownGVKs]
  · rfl

/-! ## Claim theorems: ownership-label stamping (C9) -/

/-- C9: `makeDesiredResources` stamps each spec entry's document with the
five ownership labels derived from the Release and the entry's ID,
overwriting whatever the raw document carried under those keys, and
preserves every other label (and the document's identity) unchanged. -/
theorem makeDesiredResources_stamps_ownership (release : Release)
    (e : ReleaseResource) (he : e ∈ release.resources) (k : String)
    (hk1 : k ≠ LabelKeyManagedBy) (hk2 : k ≠ LabelKeyReleaseResourceID)
    (hk3 : k ≠ LabelKeyReleaseUID) (hk4 : k ≠ LabelKeyReleaseName)
    (hk5 : k ≠ LabelKeyReleaseNamespace) :
    stampTrackingLabels release e.id e.doc ∈ makeDesiredResources release ∧
    labelGet (stampTrackingLabels release e.id e.doc).labels LabelKeyManagedBy
      = ControllerName ∧
    labelGet (stampTrackingLabels release e.id e.doc).labels LabelKeyReleaseResourceID
      = e.id ∧
    labelGet (stampTrackingLabels release e.id e.doc).labels LabelKeyReleaseUID
      = release.uid ∧
    labelGet (stampTrackingLabels release e.id e.doc).labels LabelKeyReleaseName
      = release.name ∧
    labelGet (stampTrackingLabels release e.id e.doc).labels LabelKeyReleaseNamespace
      = release.ns ∧
    labelGet (stampTrackingLabels release e.id e.doc).labels k
      = labelGet e.doc.labels k ∧
    (stampTrackingLabels release e.id e.doc).gvk = e.doc.gvk ∧
    (stampTrackingLabels release e.id e.doc).name = e.doc.name ∧
    (stampTrackingLabels release e.id e.doc).ns = e.doc.ns := by
  refine ⟨?_, ?_, ?_, ?_, ?_, ?_, ?_, rfl, rfl, rfl⟩
  · exact List.mem_map_of_mem (fun r => stampTrackingLabels release r.id r.doc) he
  · show labelGet (labelSet (labelSet (labelSet (labelSet (labelSet e.doc.labels
      LabelKeyManagedBy ControllerName) LabelKeyReleaseResourceID e.id)
      LabelKeyReleaseUID release.uid) LabelKeyReleaseName release.name)
      LabelKeyReleaseNamespace release.ns) LabelKeyManagedBy = ControllerName
    rw [labelGet_labelSet_ne _ _ _ _ (by decide),
        labelGet_labelSet_ne _ _ _ _ (by decide),
        labelGet_labelSet_ne _ _ _ _ (by decide),
        labelGet_labelSet_ne _ _ _ _ (by decide),
        labelGet_labelSet_same]
  · show labelGet (labelSet (labelSet (labelSet (labelSet (labelSet e.doc.labels
      LabelKeyManagedBy ControllerName) LabelKeyReleaseResourceID e.id)
      LabelKeyReleaseUID release.uid) LabelKeyReleaseName release.name)
      LabelKeyReleaseNamespace release.ns) LabelKeyReleaseResourceID = e.id
    rw [labelGet_labelSet_ne _ _ _ _ (by decide),
        labelGet_labelSet_ne _ _ _ _ (by decide),
        labelGet_labelSet_ne _ _ _ _ (by decide),
        labelGet_labelSet_same]
  · show labelGet (labelSet (labelSet (labelSet (labelSet (labelSet e.doc.labels
      LabelKeyManagedBy ControllerName) LabelKeyReleaseResourceID e.id)
      LabelKeyReleaseUID release.uid) LabelKeyReleaseName release.name)
      LabelKeyReleaseNamespace release.ns) LabelKeyReleaseUID = release.uid
    rw [labelGet_labelSet_ne _ _ _ _ (by decide),
        labelGet_labelSet_ne _ _ _ _ (by decide),
        labelGet_labelSet_same]
  · show labelGet (labelSet (labelSet (labelSet (labelSet (labelSet e.doc.labels
      LabelKeyManagedBy ControllerName) LabelKeyReleaseResourceID e.id)
      LabelKeyReleaseUID release.uid) LabelKeyReleaseName release.name)
      LabelKeyReleaseNamespace release.ns) LabelKeyReleaseName = release.name
    rw [labelGet_labelSet_ne _ _ _ _ (by decide),
        labelGet_labelSet_same]
  · show labelGet (labelSet (labelSet (labelSet (labelSet (labelSet e.doc.labels
      LabelKeyManagedBy ControllerName) LabelKeyReleaseResourceID e.id)
      LabelKeyReleaseUID release.uid) LabelKeyReleaseName release.name)
      LabelKeyReleaseNamespace release.ns) LabelKeyReleaseNamespace = release.ns
    rw [labelGet_labelSet_same]
  · show labelGet (labelSet (labelSet (labelSet (labelSet (labelSet e.doc.labels
      LabelKeyManagedBy ControllerName) LabelKeyReleaseResourceID e.id)
      LabelKeyReleaseUID release.uid) LabelKeyReleaseName release.name)
      LabelKeyReleaseNamespace release.ns) k = labelGet e.doc.labels k
    rw [labelGet_labelSet_ne _ _ _ _ hk5, labelGet_labelSet_ne _ _ _ _ hk4,
        labelGet_labelSet_ne _ _ _ _ hk3, labelGet_labelSet_ne _ _ _ _ hk2,
        labelGet_labelSet_ne _ _ _ _ hk1]

/-- A concrete Release for witnesses: one Deployment entry whose raw document
already carries an `app` label and a stale value under the release-UID key. -/
def c9Release : Release :=
  { uid := "uid-1", name := "my-release", ns := "org-1",
    environmentName := "dev",
    resources := [⟨"res-a",
      ⟨⟨"apps", "v1", "Deployment"⟩, "app", "default",
       [("app", "x"), (LabelKeyReleaseUID, "stale-value")]⟩⟩],
    interval := none, progressingInterval := none, statusResources := [] }

/-- C9 witness: on `c9Release`, the stale release-UID value is overwritten
and the unrelated `app` label survives. -/
theorem makeDesiredResources_stamps_ownership_witness :
    labelGet (stampTrackingLabels c9Release "res-a"
      ⟨⟨"apps", "v1", "Deployment"⟩, "app", "default",
       [("app", "x"), (LabelKeyReleaseUID, "stale-value")]⟩).labels
      LabelKeyReleaseUID = "uid-1" ∧
    labelGet (stampTrackingLabels c9Release "res-a"
      ⟨⟨"apps", "v1", "Deployment"⟩, "app", "default",
       [("app", "x"), (LabelKeyReleaseUID, "stale-value")]⟩).labels
      "app" = "x" := by
  have h := makeDesiredResources_stamps_ownership c9Release
    ⟨"res-a", ⟨⟨"apps", "v1", "Deployment"⟩, "app", "default",
      [("app", "x"), (LabelKeyReleaseUID, "stale-value")]⟩⟩
    (by simp [c9Release]) "app"
    (by decide) (by decide) (by decide) (by decide) (by decide)
  exact ⟨h.2.2.2.1, h.2.2.2.2.2.2.1⟩

/-! ## Claim theorems: stale detection (C3) -/

/-- A live resource discovered by the label selector but carrying no
resource-ID label at all (its ID reads as the empty string). -/
def c3LiveNoID : Resource :=
  ⟨⟨"", "v1", "ConfigMap"⟩, "cm-legacy", "default",
   [(LabelKeyManagedBy, ControllerName), (LabelKeyReleaseUID, "uid-1")]⟩

/-- A desired document with resource ID `res-a`. -/
def c3Desired : Resource :=
  ⟨⟨"", "v1", "ConfigMap"⟩, "cm", "default", [(LabelKeyReleaseResourceID, "res-a")]⟩

/-- C3 counterexample: the claim says the stale set is exactly the live
resources whose resource-ID label is absent from the desired-ID set.
`c3LiveNoID`'s (empty) ID is absent from the desired-ID set `{res-a}`, so the
claimed stale set contains it — but `findStaleResources` skips live resources
whose resource-ID label is empty, returns the empty stale set, and the
resource survives the pass undeleted. -/
theorem findStaleResources_counterexample :
    claimedStaleResources [c3LiveNoID] [c3Desired] = [c3LiveNoID] ∧
    findStaleResources [c3LiveNoID] [c3Desired] = [] ∧
    deleteResources [c3LiveNoID] (findStaleResources [c3LiveNoID] [c3Desired]) =
      [c3LiveNoID] := by
  refine ⟨?_, ?_, ?_⟩ <;> rfl

/-- C3 (amended): the stale set is exactly the live resources carrying a
NON-EMPTY resource-ID label whose ID is absent from the desired-ID set, and
every stale resource is deleted by the pass's delete phase. -/
theorem findStaleResources_spec (live desired cluster : List Resource) :
    (∀ r, r ∈ findStaleResources live desired ↔
      (r ∈ live ∧ labelGet r.labels LabelKeyReleaseResourceID ≠ "" ∧
        labelGet r.labels LabelKeyReleaseResourceID ∉
          desired.map (fun o => labelGet o.labels LabelKeyReleaseResourceID))) ∧
    (∀ r, r ∈ findStaleResources live desired →
      r ∉ deleteResources cluster (findStaleResources live desired)) := by
  have haux : ∀ (l : List Resource) (s : List String) (i : String),
      i ∈ desiredResourceIDsAux s l ↔
        i ∈ s ∨ ∃ o ∈ l, labelGet o.labels LabelKeyReleaseResourceID ≠ "" ∧
          labelGet o.labels LabelKeyReleaseResourceID = i := by
    intro l
    induction l with
    | nil => intro s i; simp [desiredResourceIDsAux]
    | cons x xs ih =>
      intro s i
      rw [desiredResourceIDsAux, ih]
      by_cases hx : labelGet x.labels LabelKeyReleaseResourceID ≠ ""
      · rw [if_pos hx, mem_insertIfNew]
        constructor
        · rintro ((h | rfl) | ⟨o, ho, hone, hoi⟩)
          · exact Or.inl h
          · exact Or.inr ⟨x, List.mem_cons_self x xs, hx, rfl⟩
          · exact Or.inr ⟨o, List.mem_cons_of_mem x ho, hone, hoi⟩
        · rintro (h | ⟨o, ho, hone, hoi⟩)
          · exact Or.inl (Or.inl h)
          · rcases List.mem_cons.mp ho with rfl | ho
            · exact Or.inl (Or.inr hoi.symm)
            · exact Or.inr ⟨o, ho, hone, hoi⟩
      · rw [if_neg hx]
        constructor
        · rintro (h | ⟨o, ho, hone, hoi⟩)
          · exact Or.inl h
          · exact Or.inr ⟨o, List.mem_cons_of_mem x ho, hone, hoi⟩
        · rintro (h | ⟨o, ho, hone, hoi⟩)
          · exact Or.inl h
          · rcases List.mem_cons.mp ho with rfl | ho
            · exact absurd hone hx
            · exact Or.inr ⟨o, ho, hone, hoi⟩
  have hids : ∀ i : String, i ≠ "" →
      (i ∈ desiredResourceIDs desired ↔
        i ∈ desired.map (fun o => labelGet o.labels LabelKeyReleaseResourceID)) := by
    intro i hi
    unfold desiredResourceIDs
    rw [haux]
    simp only [List.mem_nil_iff, false_or, List.mem_map]
    constructor
    · rintro ⟨o, ho, _, hoi⟩
      exact ⟨o, ho, hoi⟩
    · rintro ⟨o, ho, hoi⟩
      exact ⟨o, ho, by rw [hoi]; exact hi, hoi⟩
  constructor
  · intro r
    unfold findStaleResources
    rw [List.mem_filter]
    constructor
    · rintro ⟨hr, hcond⟩
      simp only [Bool.and_eq_true, decide_eq_true_eq, Bool.not_eq_true',
        ne_eq] at hcond
      obtain ⟨hne, hcontains⟩ := hcond
      refine ⟨hr, hne, fun hmem => ?_⟩
      have : labelGet r.labels LabelKeyReleaseResourceID ∈ desiredResourceIDs desired :=
        (hids _ hne).mpr hmem
      rw [List.contains_eq_any_beq] at hcontains
      have : (desiredResourceIDs desired).any
          (fun x => labelGet r.labels LabelKeyReleaseResourceID == x) = true :=
        List.any_eq_true.mpr ⟨_, this, beq_self_eq_true _⟩
      rw [this] at hcontains
      cases hcontains
    · rintro ⟨hr, hne, hnmem⟩
      refine ⟨hr, ?_⟩
      simp only [Bool.and_eq_true, decide_eq_true_eq, Bool.not_eq_true', ne_eq]
      refine ⟨hne, ?_⟩
      rw [List.contains_eq_any_beq]
      rw [List.any_eq_false]
      intro x hx
      intro hbeq
      exact hnmem ((hids _ hne).mp (by rwa [← eq_of_beq hbeq] at hx))
  · intro r hr hdel
    unfold deleteResources at hdel
    rw [List.mem_filter] at hdel
    obtain ⟨-, hcond⟩ := hdel
    rw [Bool.not_eq_true'] at hcond
    have : (findStaleResources live desired).any (fun s => sameObject s r) = true :=
      List.any_eq_true.mpr ⟨r, hr, by simp [sameObject]⟩
    rw [this] at hcond
    cases hcond

/-- A live resource with a non-empty ID absent from an empty desired set. -/
def c3Stale : Resource :=
  ⟨⟨"", "v1", "Secret"⟩, "old", "default",
   [(LabelKeyManagedBy, ControllerName), (LabelKeyReleaseUID, "uid-1"),
    (LabelKeyReleaseResourceID, "res-old")]⟩

/-- C3 witness: the stale `c3Stale` is removed from the cluster by the
delete phase. -/
theorem findStaleResources_spec_witness :
    c3Stale ∉ deleteResources [c3Stale] (findStaleResources [c3Stale] []) :=
  (findStaleResources_spec [c3Stale] [] [c3Stale]).2 c3Stale (by decide)

/-! ## Claim theorems: list-failure handling (C5) -/

/-- Concatenation-fold membership for the per-GVK listing loop. -/
theorem mem_listLive_fold (cluster : List Resource) (listFails : GVK → Bool)
    (uid : String) (gvks : List GVK) (acc : List Resource) (r : Resource) :
    r ∈ gvks.foldl (fun acc gvk =>
        if listFails gvk then acc else acc ++ listOneGVK cluster uid gvk) acc ↔
      r ∈ acc ∨ ∃ g ∈ gvks, listFails g = false ∧ r ∈ listOneGVK cluster uid g := by
  induction gvks generalizing acc with
  | nil => simp
  | cons g gs ih =>
    rw [List.foldl_cons, ih]
    by_cases hg : listFails g
    · rw [if_pos hg]
      constructor
      · rintro (h | ⟨g', hg', hf, hr⟩)
        · exact Or.inl h
        · exact Or.inr ⟨g', List.mem_cons_of_mem g hg', hf, hr⟩
      · rintro (h | ⟨g', hg', hf, hr⟩)
        · exact Or.inl h
        · rcases List.mem_cons.mp hg' with rfl | hg'
          · rw [hg] at hf; cases hf
          · exact Or.inr ⟨g', hg', hf, hr⟩
    · rw [if_neg hg]
      constructor
      · rintro (h | ⟨g', hg', hf, hr⟩)
        · rcases List.mem_append.mp h with h | h
          · exact Or.inl h
          · exact Or.inr ⟨g, List.mem_cons_self g gs, Bool.eq_false_iff.mpr hg, h⟩
        · exact Or.inr ⟨g', List.mem_cons_of_mem g hg', hf, hr⟩
      · rintro (h | ⟨g', hg', hf, hr⟩)
        · exact Or.inl (List.mem_append.mpr (Or.inl h))
        · rcases List.mem_cons.mp hg' with rfl | hg'
          · exact Or.inl (List.mem_append.mpr (Or.inr hr))
          · exact Or.inr ⟨g', hg', hf, hr⟩

/-- C5 (amended): a transient `List` failure for a probed GVK is never
surfaced: `listLiveResourcesByGVKs` always returns success, and its result
holds exactly the matching resources of the GVKs whose `List` call did NOT
fail — the failed GVKs' resources are silently missing from the live set for
this pass. -/
theorem listLiveResourcesByGVKs_swallows_failures (cluster : List Resource)
    (listFails : GVK → Bool) (uid : String) (gvks : List GVK) :
    (listLiveResourcesByGVKs cluster listFails uid gvks).isOk = true ∧
    ∀ live, listLiveResourcesByGVKs cluster listFails uid gvks = Except.ok live →
      ∀ r, r ∈ live ↔
        ∃ g ∈ gvks, listFails g = false ∧ r ∈ listOneGVK cluster uid g := by
  refine ⟨rfl, ?_⟩
  intro live hl r
  have hlive := Except.ok.inj hl
  rw [← hlive, mem_listLive_fold]
  simp

/-- The pre-failure stale Secret used in the C5 scenario. -/
def c5StaleSecret : Resource :=
  ⟨⟨"", "v1", "Secret"⟩, "sec", "default",
   [(LabelKeyManagedBy, ControllerName), (LabelKeyReleaseUID, "uid-1"),
    (LabelKeyReleaseResourceID, "res-b")]⟩

/-- The transient failure profile of the C5 scenario: listing Secrets fails. -/
def c5ListFails : GVK → Bool := fun g => g.kind == "Secret"

/-- C5 witness: with the Secret listing failing, the live set comes back
empty — the stale Secret is invisible to this pass. -/
theorem listLiveResourcesByGVKs_swallows_failures_witness :
    c5StaleSecret ∈ ([] : List Resource) ↔
      ∃ g ∈ [(⟨"", "v1", "Secret"⟩ : GVK)], c5ListFails g = false ∧
        c5StaleSecret ∈ listOneGVK [c5StaleSecret] "uid-1" g :=
  (listLiveResourcesByGVKs_swallows_failures [c5StaleSecret] c5ListFails "uid-1"
    [⟨"", "v1", "Secret"⟩]).2 [] rfl c5StaleSecret

/-- The desired ConfigMap document of the C5 scenario. -/
def c5ConfigMapDoc : Resource := ⟨⟨"", "v1", "ConfigMap"⟩, "cm", "default", []⟩

/-- The Release of the C5 scenario: one desired ConfigMap; the status
inventory still records a Secret from the previous pass. -/
def c5Release : Release :=
  { uid := "uid-1", name := "rel", ns := "org-1", environmentName := "dev",
    resources := [⟨"res-a", c5ConfigMapDoc⟩],
    interval := none, progressingInterval := none,
    statusResources := [⟨"", "v1", "Secret", "res-b", "sec", "default"⟩] }

/-- C5 counterexample: the Secret GVK is probed and its `List` call fails
transiently, yet the reconcile pass returns success (no error is surfaced)
and the stale Secret silently survives the pass. -/
theorem steadyStateReconcile_swallows_list_failure :
    c5ListFails ⟨"", "v1", "Secret"⟩ = true ∧
    (⟨"", "v1", "Secret"⟩ : GVK) ∈
      findAllKnownGVKs (makeDesiredResources c5Release) c5Release.statusResources ∧
    steadyStateReconcile true c5Release [c5StaleSecret] c5ListFails false
        (fun _ => 0) =
      Except.ok ⟨[c5StaleSecret, stampTrackingLabels c5Release "res-a" c5ConfigMapDoc],
        [⟨"", "v1", "ConfigMap", "res-a", "cm", "default"⟩], 0⟩ := by
  refine ⟨rfl, ?_, ?_⟩
  · decide
  · rfl

/-! ## Claim theorems: requeue intervals (C6) -/

/-- Jitter bounds for a positive base: the returned delay is the base plus a
jitter drawn from `[0, base/5)` (or zero when the cap truncates to zero). -/
theorem addJitter_bounds (base : Int) (randIntn : Int → Int)
    (hr : ∀ n : Int, 0 < n → 0 ≤ randIntn n ∧ randIntn n < n)
    (hb : 0 < base) :
    ∃ j, 0 ≤ j ∧ 5 * j ≤ base ∧
      addJitter base (jitterCap20 base) randIntn = base + j := by
  by_cases hc : jitterCap20 base ≤ 0
  · exact ⟨0, le_refl 0, by omega, by simp [addJitter, hc]⟩
  · have hcpos : 0 < base / 5 := by
      unfold jitterCap20 at hc; omega
    obtain ⟨h0, h1⟩ := hr (base / 5) hcpos
    refine ⟨randIntn (base / 5), h0, ?_, ?_⟩
    · omega
    · unfold addJitter jitterCap20
      rw [if_neg (by unfold jitterCap20 at hc; omega)]

/-- C6: the requeue delay is computed from the progressing interval when some
tracked resource is transitioning and from the stable interval otherwise; a
configured zero disables requeueing; and for each non-zero positive base
(configured or default — 10 s progressing, 5 min stable) the delay is the
base plus a random jitter of at most 20% of the base. -/
theorem requeue_interval_spec (transitioning : Bool) (release : Release)
    (randIntn : Int → Int)
    (hr : ∀ n : Int, 0 < n → 0 ≤ randIntn n ∧ randIntn n < n) :
    (transitioning = true →
      computeRequeueAfter transitioning release randIntn =
        getProgressingRequeueInterval release randIntn) ∧
    (transitioning = false →
      computeRequeueAfter transitioning release randIntn =
        getStableRequeueInterval release randIntn) ∧
    (release.interval = some 0 →
      getStableRequeueInterval release randIntn = 0) ∧
    (release.progressingInterval = some 0 →
      getProgressingRequeueInterval release randIntn = 0) ∧
    (∀ d : Int, release.interval = some d → 0 < d →
      ∃ j, 0 ≤ j ∧ 5 * j ≤ d ∧
        getStableRequeueInterval release randIntn = d + j) ∧
    (∀ d : Int, release.progressingInterval = some d → 0 < d →
      ∃ j, 0 ≤ j ∧ 5 * j ≤ d ∧
        getProgressingRequeueInterval release randIntn = d + j) ∧
    (release.interval = none →
      ∃ j, 0 ≤ j ∧ 5 * j ≤ 300000000000 ∧
        getStableRequeueInterval release randIntn = 300000000000 + j) ∧
    (release.progressingInterval = none →
      ∃ j, 0 ≤ j ∧ 5 * j ≤ 10000000000 ∧
        getProgressingRequeueInterval release randIntn = 10000000000 + j) := by
  refine ⟨fun ht => by simp [computeRequeueAfter, ht],
    fun ht => by simp [computeRequeueAfter, ht], ?_, ?_, ?_, ?_, ?_, ?_⟩
  · intro h
    unfold getStableRequeueInterval
    rw [h]
    simp
  · intro h
    unfold getProgressingRequeueInterval
    rw [h]
    simp
  · intro d h hd
    have heq : getStableRequeueInterval release randIntn =
        addJitter d (jitterCap20 d) randIntn := by
      unfold getStableRequeueInterval
      rw [h]
      exact if_neg (by omega)
    rw [heq]
    exact addJitter_bounds d randIntn hr hd
  · intro d h hd
    have heq : getProgressingRequeueInterval release randIntn =
        addJitter d (jitterCap20 d) randIntn := by
      unfold getProgressingRequeueInterval
      rw [h]
      exact if_neg (by omega)
    rw [heq]
    exact addJitter_bounds d randIntn hr hd
  · intro h
    unfold getStableRequeueInterval
    rw [h]
    have := addJitter_bounds (5 * 60 * 1000000000) randIntn hr (by norm_num)
    simpa using this
  · intro h
    unfold getProgressingRequeueInterval
    rw [h]
    have := addJitter_bounds (10 * 1000000000) randIntn hr (by norm_num)
    simpa using this

/-- A Release with a configured one-second reconcile interval. -/
def c6Release : Release :=
  { uid := "uid-1", name := "rel", ns := "org-1", environmentName := "dev",
    resources := [], interval := some 1000000000,
    progressingInterval := some 0, statusResources := [] }

/-- C6 witness: with a configured 1 s stable interval the delay is 1 s plus
a jitter within 20%, and the configured zero progressing interval disables
the progressing requeue. -/
theorem requeue_interval_spec_witness :
    (∃ j, 0 ≤ j ∧ 5 * j ≤ 1000000000 ∧
      getStableRequeueInterval c6Release (fun _ => 0) = 1000000000 + j) ∧
    getProgressingRequeueInterval c6Release (fun _ => 0) = 0 := by
  have h := requeue_interval_spec false c6Release (fun _ => 0)
    (fun n hn => ⟨le_refl 0, hn⟩)
  exact ⟨h.2.2.2.2.1 1000000000 rfl (by norm_num), h.2.2.2.1 rfl⟩

/-! ## Claim theorems: finalization (C2, C10) -/

/-- A live resource of a custom GVK, labelled as owned by Release `uid-1`,
never recorded in any status inventory. -/
def c2Widget : Resource :=
  ⟨⟨"example.com", "v1", "Widget"⟩, "w1", "default",
   [(LabelKeyManagedBy, ControllerName), (LabelKeyReleaseUID, "uid-1")]⟩

/-- A Release being finalized whose status inventory is empty (e.g. the very
first status write never succeeded). -/
def c2Release : Release :=
  { uid := "uid-1", name := "rel", ns := "org-1", environmentName := "dev",
    resources := [], interval := none, progressingInterval := none,
    statusResources := [] }

/-- C2 counterexample: a finalization pass removes the cleanup finalizer
while a live resource carrying this Release's UID ownership label is still
on the cluster — the probe set derived from the (empty) status inventory
never lists the Widget, so the pass sees zero live resources and proceeds
to remove the finalizer. -/
theorem finalize_counterexample :
    (finalize true true true c2Release [c2Widget] (fun _ => false)).1 =
      FinalizeStep.removedFinalizer ∧
    (finalize true true true c2Release [c2Widget] (fun _ => false)).2 =
      [c2Widget] ∧
    labelGet c2Widget.labels LabelKeyReleaseUID = c2Release.uid := by
  refine ⟨rfl, rfl, rfl⟩

/-- C2 (amended): the finalizer is removed exactly when the finalization
pass gets past its guards and the listing over the probed GVKs (those of the
status inventory; the well-known catalog is dropped by `findAllKnownGVKs`)
observes zero live resources.  Resources whose GVK is not probed can remain
on the cluster, still labelled with the Release's UID, after the finalizer
is removed. -/
theorem finalize_removes_iff_listing_empty (fp cs ok : Bool) (rel : Release)
    (cluster : List Resource) (listFails : GVK → Bool) :
    (finalize fp cs ok rel cluster listFails).1 = FinalizeStep.removedFinalizer ↔
      (fp = true ∧ cs = true ∧ ok = true ∧
        listLiveResourcesByGVKs cluster listFails rel.uid
          (findAllKnownGVKs [] rel.statusResources) = Except.ok []) := by
  cases fp with
  | false => simp [finalize]
  | true =>
    cases cs with
    | false => simp [finalize]
    | true =>
      cases ok with
      | false => simp [finalize]
      | true =>
        show ((match listLiveResourcesByGVKs cluster listFails rel.uid
            (findAllKnownGVKs [] rel.statusResources) with
          | .error e => (FinalizeStep.failed e, cluster)
          | .ok liveResources =>
            if liveResources.isEmpty then
              (FinalizeStep.removedFinalizer, deleteResources cluster liveResources)
            else
              (FinalizeStep.requeue finalizeRequeueDelayNs,
                deleteResources cluster liveResources)).1 =
          FinalizeStep.removedFinalizer) ↔ _
        rw [listLiveResourcesByGVKs]
        cases hL : (findAllKnownGVKs [] rel.statusResources).foldl (fun acc gvk =>
            if listFails gvk then acc else acc ++ listOneGVK cluster rel.uid gvk) [] with
        | nil => simp
        | cons a t => simp [List.isEmpty]

/-- C10: a finalization pass whose pre-delete listing is non-empty never
removes the finalizer in that pass: even with every delete call succeeding
it requeues after the fixed 5-second delay, and the finalizer can only be
removed by a pass whose listing observed zero live resources. -/
theorem finalize_requeues_while_resources_remain (fp cs ok : Bool)
    (rel : Release) (cluster : List Resource) (listFails : GVK → Bool)
    (live : List Resource)
    (hl : listLiveResourcesByGVKs cluster listFails rel.uid
      (findAllKnownGVKs [] rel.statusResources) = Except.ok live)
    (hne : live ≠ []) :
    (finalize fp cs ok rel cluster listFails).1 ≠
      FinalizeStep.removedFinalizer ∧
    (fp = true → cs = true → ok = true →
      (finalize fp cs ok rel cluster listFails).1 =
        FinalizeStep.requeue finalizeRequeueDelayNs) ∧
    finalizeRequeueDelayNs = 5 * 1000000000 := by
  have hmain : ∀ (h1 : fp = true) (h2 : cs = true) (h3 : ok = true),
      (finalize fp cs ok rel cluster listFails).1 =
        FinalizeStep.requeue finalizeRequeueDelayNs := by
    intro h1 h2 h3
    subst h1; subst h2; subst h3
    show (match listLiveResourcesByGVKs cluster listFails rel.uid
        (findAllKnownGVKs [] rel.statusResources) with
      | .error e => (FinalizeStep.failed e, cluster)
      | .ok liveResources =>
        if liveResources.isEmpty then
          (FinalizeStep.removedFinalizer, deleteResources cluster liveResources)
        else
          (FinalizeStep.requeue finalizeRequeueDelayNs,
            deleteResources cluster liveResources)).1 =
      FinalizeStep.requeue finalizeRequeueDelayNs
    rw [hl]
    cases live with
    | nil => exact absurd rfl hne
    | cons a t => simp [List.isEmpty]
  refine ⟨?_, hmain, rfl⟩
  cases fp with
  | false => simp [finalize]
  | true =>
    cases cs with
    | false => simp [finalize]
    | true =>
      cases ok with
      | false => simp [finalize]
      | true =>
        rw [hmain rfl rfl rfl]
        simp

/-- A Release being finalized whose status inventory records the Widget's
GVK, so the finalization listing does find it. -/
def c10Release : Release :=
  { uid := "uid-1", name := "rel", ns := "org-1", environmentName := "dev",
    resources := [], interval := none, progressingInterval := none,
    statusResources := [⟨"example.com", "v1", "Widget", "res-w", "w1", "default"⟩] }

/-- C10 witness: with the Widget live and listed, the pass requeues after
5 seconds instead of removing the finalizer. -/
theorem finalize_requeues_while_resources_remain_witness :
    (finalize true true true c10Release [c2Widget] (fun _ => false)).1 =
      FinalizeStep.requeue finalizeRequeueDelayNs :=
  (finalize_requeues_while_resources_remain true true true c10Release
    [c2Widget] (fun _ => false) [c2Widget] rfl (by decide)).2.1 rfl rfl rfl

/-! ## Parameter value trees (`internal/pipeline/component/context`)

The context builder works on decoded JSON parameter objects
(`map[string]any`).  `Val` models such a value: strings, numbers, booleans,
arrays and nested objects (as association lists, like `Labels`). -/

inductive Val where
  | str (s : String)
  | num (n : Int)
  | boolv (b : Bool)
  | arr (elems : List Val)
  | vmap (entries : List (String × Val))

/-- Whether a value is a JSON object (a map). -/
def Val.isMap : Val → Bool
  | .vmap _ => true
  | _ => false

/-- Keyed lookup in a decoded JSON object (first binding wins). -/
def lookupKey {α : Type} (l : List (String × α)) (k : String) : Option α :=
  match l.find? (fun p => p.1 = k) with
  | some p => some p.2
  | none => none

mutual
/-- Modelled from the spec: `deepMerge(base, override)` (called by
`BuildTraitContext` but defined outside this package's sources) is "a deep,
recursive merge for nested map values; any non-map value at a given key is
replaced wholesale by the higher-precedence value" — the second argument has
the higher precedence. -/
def deepMerge : Val → Val → Val
  | .vmap b, .vmap o =>
    .vmap (deepMergeEntries b o ++ o.filter (fun p => (lookupKey b p.1).isNone))
  | _, o => o
termination_by v _ => sizeOf v

/-- The per-key walk of `deepMerge` over the base object's entries: a key
also present in the override merges recursively, a key only in the base is
kept (override-only keys are appended by `deepMerge` itself). -/
def deepMergeEntries : List (String × Val) → List (String × Val) → List (String × Val)
  | [], _ => []
  | (k, v) :: rest, o =>
    (k, match lookupKey o k with
        | some w => deepMerge v w
        | none => v) :: deepMergeEntries rest o
termination_by l _ => sizeOf l
end

/-- `deepMerge` on two objects, at the entry-list level. -/
def deepMergeMaps (b o : List (String × Val)) : List (String × Val) :=
  deepMergeEntries b o ++ o.filter (fun p => (lookupKey b p.1).isNone)

/-- Modelled from the spec: `schema.ApplyDefaults(parameters, structural)`
(defined outside this package's sources) fills schema defaults in at the
lowest precedence — equivalently, it deep-merges the parameters over the
defaults tree.  The structural schema is modelled by the tree of default
values it carries. -/
def applyDefaults (parameters defaults : List (String × Val)) : List (String × Val) :=
  deepMergeMaps defaults parameters

/-! ## BuildTraitContext inputs (`trait.go`) -/

/-- `context.MetadataContext`: the generated object metadata handed to the
builder.  `annots` is the Go `Annotations` field. -/
structure MetadataContext where
  name : String
  ns : String
  labels : List (String × String)
  annots : List (String × String)
  podSelectors : List (String × String)

/-- The fields of a Trait the builder reads: its name and its structural
schema, the latter modelled by the default-value tree it induces (the
`BuildStructuralSchema` call and the per-request schema cache are outside
this package's sources; the cache only avoids rebuilding the same
schema). -/
structure TraitDef where
  name : String
  schemaDefaults : List (String × Val)

/-- The component reference placed into the context. -/
structure ComponentRef where
  name : String
  ns : String

/-- `ComponentTrait`: the trait instance attached to the component, with its
decoded instance parameters. -/
structure TraitInstanceData where
  instanceName : String
  parameters : List (String × Val)

/-- The `ComponentDeployment` fields the builder reads: environment-specific
trait overrides keyed by `instanceName` (`none` = nil map). -/
structure ComponentDeploymentSpec where
  traitOverrides : Option (List (String × List (String × Val)))

/-- The environment placed into the context. -/
structure EnvironmentRef where
  name : String
  vhost : String

/-- `TraitContextInput`: `trait` and `component` are pointers (`none` =
nil). -/
structure TraitContextInput where
  trait : Option TraitDef
  component : Option ComponentRef
  inst : TraitInstanceData
  componentDeployment : Option ComponentDeploymentSpec
  environment : EnvironmentRef
  metadata : MetadataContext

/-- A `map[string]string` embedded as a JSON object value. -/
def strMapVal (m : List (String × String)) : Val :=
  .vmap (m.map (fun p => (p.1, Val.str p.2)))

/-- `BuildTraitContext(input)` (`trait.go`): validate the required inputs,
merge instance parameters with the matching environment override and the
schema defaults, then assemble the `parameters`/`trait`/`component`/
`environment`/`metadata` sections.  The whole input being nil is modelled by
the `Option` around it. -/
def BuildTraitContext (input? : Option TraitContextInput) :
    Except String (List (String × Val)) :=
  match input? with
  | none => .error "trait context input is nil"
  | some input =>
    match input.trait with
    | none => .error "trait is nil"
    | some trait =>
      match input.component with
      | none => .error "component is nil"
      | some component =>
        if input.metadata.name = "" then .error "metadata.name is required"
        else if input.metadata.ns = "" then .error "metadata.namespace is required"
        else
          -- 2. start with the instance parameters
          let parameters := input.inst.parameters
          -- 3. merge environment overrides if present (keyed by instanceName)
          let parameters :=
            match input.componentDeployment with
            | some cd =>
              match cd.traitOverrides with
              | some tOverrides =>
                match lookupKey tOverrides input.inst.instanceName with
                | some instanceOverride => deepMergeMaps parameters instanceOverride
                | none => parameters
              | none => parameters
            | none => parameters
          -- 4. apply schema defaults
          let parameters := applyDefaults parameters trait.schemaDefaults
          .ok
            [("parameters", Val.vmap parameters),
             -- 5. trait metadata
             ("trait", Val.vmap
               [("name", Val.str trait.name),
                ("instanceName", Val.str input.inst.instanceName)]),
             -- 6. component reference
             ("component", Val.vmap
               ([("name", Val.str component.name)] ++
                (if component.ns ≠ "" then [("namespace", Val.str component.ns)] else []))),
             -- 7. environment
             ("environment", Val.vmap
               [("name", Val.str input.environment.name),
                ("vhost", Val.str input.environment.vhost)]),
             -- 8. structured metadata for resource generation
             ("metadata", Val.vmap
               ([("name", Val.str input.metadata.name),
                 ("namespace", Val.str input.metadata.ns)] ++
                (if input.metadata.labels.length > 0 then
                  [("labels", strMapVal input.metadata.labels)] else []) ++
                (if input.metadata.annots.length > 0 then
                  [("annotations", strMapVal input.metadata.annots)] else []) ++
                (if input.metadata.podSelectors.length > 0 then
                  [("podSelectors", strMapVal input.metadata.podSelectors)] else [])))]

/-! ## Merge-lookup lemmas -/

/-- Lookup against a cons cell. -/
theorem lookupKey_cons {α : Type} (k' : String) (v : α) (l : List (String × α))
    (k : String) :
    lookupKey ((k', v) :: l) k = if k' = k then some v else lookupKey l k := by
  unfold lookupKey
  rw [List.find?_cons]
  by_cases h : k' = k
  · simp [h]
  · simp [h]

/-- Lookup distributes over append as a left-biased choice. -/
theorem lookupKey_append {α : Type} (l1 l2 : List (String × α)) (k : String) :
    lookupKey (l1 ++ l2) k = (lookupKey l1 k).or (lookupKey l2 k) := by
  unfold lookupKey
  rw [List.find?_append]
  cases List.find? (fun p => p.1 = k) l1 <;> rfl

/-- Lookup in the merged walk of the base entries: present exactly for the
base's keys, merged with the override's value where both are present. -/
theorem lookupKey_deepMergeEntries (b o : List (String × Val)) (k : String) :
    lookupKey (deepMergeEntries b o) k =
      match lookupKey b k with
      | some v => some (match lookupKey o k with
          | some w => deepMerge v w
          | none => v)
      | none => none := by
  induction b with
  | nil =>
    simp only [deepMergeEntries]
    rfl
  | cons p rest ih =>
    obtain ⟨k', v'⟩ := p
    simp only [deepMergeEntries]
    rw [lookupKey_cons, lookupKey_cons]
    by_cases hk : k' = k
    · subst hk
      rw [if_pos rfl, if_pos rfl]
    · rw [if_neg hk, if_neg hk, ih]

/-- When the base lacks key `k`, the filtered override entries still resolve
`k` exactly as the override does. -/
theorem lookupKey_filter_of_none (b o : List (String × Val)) (k : String)
    (hb : lookupKey b k = none) :
    lookupKey (o.filter (fun p => (lookupKey b p.1).isNone)) k = lookupKey o k := by
  induction o with
  | nil => rfl
  | cons p rest ih =>
    obtain ⟨k', v'⟩ := p
    rw [List.filter_cons]
    by_cases hk : k' = k
    · subst hk
      rw [if_pos (by rw [hb]; rfl), lookupKey_cons, lookupKey_cons,
        if_pos rfl, if_pos rfl]
    · cases hcond : (lookupKey b k').isNone with
      | true =>
        rw [if_pos rfl, lookupKey_cons, lookupKey_cons,
          if_neg hk, if_neg hk, ih]
      | false =>
        rw [if_neg (by simp), ih, lookupKey_cons, if_neg hk]

/-- When the base already has key `k`, the filtered override entries never
resolve it. -/
theorem lookupKey_filter_of_some (b o : List (String × Val)) (k : String)
    (w : Val) (hb : lookupKey b k = some w) :
    lookupKey (o.filter (fun p => (lookupKey b p.1).isNone)) k = none := by
  induction o with
  | nil => rfl
  | cons p rest ih =>
    obtain ⟨k', v'⟩ := p
    rw [List.filter_cons]
    by_cases hk : k' = k
    · subst hk
      rw [if_neg (by rw [hb]; simp), ih]
    · cases hcond : (lookupKey b k').isNone with
      | true =>
        rw [if_pos rfl, lookupKey_cons, if_neg hk, ih]
      | false =>
        rw [if_neg (by simp), ih]

/-- Keyed characterisation of `deepMerge` on objects. -/
theorem lookupKey_deepMergeMaps (b o : List (String × Val)) (k : String) :
    lookupKey (deepMergeMaps b o) k =
      match lookupKey b k, lookupKey o k with
      | some v, some w => some (deepMerge v w)
      | some v, none => some v
      | none, some w => some w
      | none, none => none := by
  unfold deepMergeMaps
  rw [lookupKey_append, lookupKey_deepMergeEntries]
  cases hb : lookupKey b k with
  | some v =>
    rw [lookupKey_filter_of_some b o k v hb]
    cases lookupKey o k <;> rfl
  | none =>
    rw [lookupKey_filter_of_none b o k hb]
    cases lookupKey o k <;> rfl

/-- A non-map override value replaces any base value wholesale. -/
theorem deepMerge_nonmap (v o : Val) (h : o.isMap = false) : deepMerge v o = o := by
  cases v <;> cases o <;> simp_all [deepMerge, Val.isMap]

/-! ## Claim theorems: parameter precedence (C4) -/

/-- C4: the merged parameter map built by `BuildTraitContext` resolves every
key with precedence environment override > instance parameters > schema
default: the context's `parameters` section is the schema defaults
deep-merged under the instance parameters deep-merged under the matching
environment override; a key present in all three layers resolves to the
three-way recursive merge, which is the override's value outright whenever
that value is not a map (non-map values replace lower layers wholesale). -/
theorem trait_parameter_precedence
    (input : TraitContextInput) (trait : TraitDef) (component : ComponentRef)
    (cd : ComponentDeploymentSpec)
    (tOverrides : List (String × List (String × Val)))
    (ov : List (String × Val))
    (ht : input.trait = some trait) (hc : input.component = some component)
    (hn : input.metadata.name ≠ "") (hns : input.metadata.ns ≠ "")
    (hcd : input.componentDeployment = some cd)
    (htov : cd.traitOverrides = some tOverrides)
    (hov : lookupKey tOverrides input.inst.instanceName = some ov)
    (k : String) (dv bv ovv : Val)
    (hd : lookupKey trait.schemaDefaults k = some dv)
    (hb : lookupKey input.inst.parameters k = some bv)
    (ho : lookupKey ov k = some ovv) :
    (∃ ctx, BuildTraitContext (some input) = Except.ok ctx ∧
      lookupKey ctx "parameters" = some (Val.vmap
        (applyDefaults (deepMergeMaps input.inst.parameters ov)
          trait.schemaDefaults))) ∧
    lookupKey (applyDefaults (deepMergeMaps input.inst.parameters ov)
        trait.schemaDefaults) k = some (deepMerge dv (deepMerge bv ovv)) ∧
    (ovv.isMap = false → deepMerge dv (deepMerge bv ovv) = ovv) := by
  have hred : BuildTraitContext (some input) = Except.ok
      (("parameters", Val.vmap (applyDefaults
          (deepMergeMaps input.inst.parameters ov) trait.schemaDefaults)) ::
        [("trait", Val.vmap
           [("name", Val.str trait.name),
            ("instanceName", Val.str input.inst.instanceName)]),
         ("component", Val.vmap
           ([("name", Val.str component.name)] ++
            (if component.ns ≠ "" then
              [("namespace", Val.str component.ns)] else []))),
         ("environment", Val.vmap
           [("name", Val.str input.environment.name),
            ("vhost", Val.str input.environment.vhost)]),
         ("metadata", Val.vmap
           ([("name", Val.str input.metadata.name),
             ("namespace", Val.str input.metadata.ns)] ++
            (if input.metadata.labels.length > 0 then
              [("labels", strMapVal input.metadata.labels)] else []) ++
            (if input.metadata.annots.length > 0 then
              [("annotations", strMapVal input.metadata.annots)] else []) ++
            (if input.metadata.podSelectors.length > 0 then
              [("podSelectors", strMapVal input.metadata.podSelectors)]
            else [])))]) := by
    simp only [BuildTraitContext, ht, hc, hcd, htov, hov]
    rw [if_neg hn, if_neg hns]
  refine ⟨⟨_, hred, ?_⟩, ?_, ?_⟩
  · rw [lookupKey_cons, if_pos rfl]
  · unfold applyDefaults
    rw [lookupKey_deepMergeMaps, hd, lookupKey_deepMergeMaps, hb, ho]
  · intro hmap
    rw [deepMerge_nonmap bv ovv hmap, deepMerge_nonmap dv ovv hmap]

/-- A concrete trait-context input where the key `retries` is present in the
schema default (1), the instance parameters (3) and the environment override
(5) simultaneously. -/
def c4Input : TraitContextInput :=
  { trait := some ⟨"resilience", [("retries", Val.num 1), ("timeout", Val.str "30s")]⟩,
    component := some ⟨"checkout", "org-1"⟩,
    inst := ⟨"resilience-main", [("retries", Val.num 3)]⟩,
    componentDeployment := some ⟨some [("resilience-main", [("retries", Val.num 5)])]⟩,
    environment := ⟨"dev", "dev.example.com"⟩,
    metadata := ⟨"checkout-dev-123", "dp-ns", [], [], []⟩ }

/-- C4 witness: on `c4Input` the merged `retries` value is the override's 5. -/
theorem trait_parameter_precedence_witness :
    lookupKey (applyDefaults (deepMergeMaps [("retries", Val.num 3)]
        [("retries", Val.num 5)])
      [("retries", Val.num 1), ("timeout", Val.str "30s")]) "retries" =
      some (Val.num 5) := by
  have h := trait_parameter_precedence c4Input
    ⟨"resilience", [("retries", Val.num 1), ("timeout", Val.str "30s")]⟩
    ⟨"checkout", "org-1"⟩
    ⟨some [("resilience-main", [("retries", Val.num 5)])]⟩
    [("resilience-main", [("retries", Val.num 5)])]
    [("retries", Val.num 5)]
    rfl rfl (by decide) (by decide) rfl rfl rfl
    "retries" (Val.num 1) (Val.num 3) (Val.num 5) rfl rfl rfl
  have h2 := h.2.1
  have h3 := h.2.2 rfl
  rw [h3] at h2
  exact h2

/-! ## Claim theorems: required inputs (C7) -/

/-- C7: `BuildTraitContext` fails whenever the input is nil, the trait is
nil, the component is nil, or the generated metadata name or namespace is
empty — and a successful result implies all of these were present.  The
`Except` result carries either an error or a full context, never a partial
one. -/
theorem buildTraitContext_requires_inputs (input? : Option TraitContextInput) :
    ((input? = none ∨ ∃ input, input? = some input ∧
        (input.trait = none ∨ input.component = none ∨
         input.metadata.name = "" ∨ input.metadata.ns = "")) →
      ∃ msg, BuildTraitContext input? = Except.error msg) ∧
    (∀ ctx, BuildTraitContext input? = Except.ok ctx →
      ∃ input, input? = some input ∧ input.trait ≠ none ∧
        input.component ≠ none ∧ input.metadata.name ≠ "" ∧
        input.metadata.ns ≠ "") := by
  cases input? with
  | none =>
    refine ⟨fun _ => ⟨"trait context input is nil", rfl⟩, ?_⟩
    intro ctx h
    cases h
  | some input =>
    cases htr : input.trait with
    | none =>
      have hred : BuildTraitContext (some input) = Except.error "trait is nil" := by
        simp only [BuildTraitContext, htr]
      refine ⟨fun _ => ⟨_, hred⟩, ?_⟩
      intro ctx h
      rw [hred] at h
      cases h
    | some tr =>
      cases hcomp : input.component with
      | none =>
        have hred : BuildTraitContext (some input) =
            Except.error "component is nil" := by
          simp only [BuildTraitContext, htr, hcomp]
        refine ⟨fun _ => ⟨_, hred⟩, ?_⟩
        intro ctx h
        rw [hred] at h
        cases h
      | some c =>
        by_cases hn : input.metadata.name = ""
        · have hred : BuildTraitContext (some input) =
              Except.error "metadata.name is required" := by
            simp only [BuildTraitContext, htr, hcomp]
            rw [if_pos hn]
          refine ⟨fun _ => ⟨_, hred⟩, ?_⟩
          intro ctx h
          rw [hred] at h
          cases h
        · by_cases hns : input.metadata.ns = ""
          · have hred : BuildTraitContext (some input) =
                Except.error "metadata.namespace is required" := by
              simp only [BuildTraitContext, htr, hcomp]
              rw [if_neg hn, if_pos hns]
            refine ⟨fun _ => ⟨_, hred⟩, ?_⟩
            intro ctx h
            rw [hred] at h
            cases h
          · constructor
            · rintro (h | ⟨i, hi, hcase⟩)
              · cases h
              · obtain rfl := Option.some.inj hi
                rcases hcase with h | h | h | h
                · rw [htr] at h; cases h
                · rw [hcomp] at h; cases h
                · exact absurd h hn
                · exact absurd h hns
            · intro ctx _
              exact ⟨input, rfl, by rw [htr]; exact fun h => Option.noConfusion h,
                by rw [hcomp]; exact fun h => Option.noConfusion h, hn, hns⟩

/-- A trait-context input whose generated metadata name is empty. -/
def c7NoName : TraitContextInput :=
  { trait := some ⟨"t", []⟩, component := some ⟨"c", ""⟩,
    inst := ⟨"i", []⟩, componentDeployment := none,
    environment := ⟨"dev", "vh"⟩, metadata := ⟨"", "dp-ns", [], [], []⟩ }

/-- C7 witness: the empty generated name makes the builder fail. -/
theorem buildTraitContext_requires_inputs_witness :
    ∃ msg, BuildTraitContext (some c7NoName) = Except.error msg :=
  (buildTraitContext_requires_inputs (some c7NoName)).1
    (Or.inr ⟨c7NoName, rfl, Or.inr (Or.inr (Or.inl rfl))⟩)

/-! ## Render label stamping (C8)

`Render` (the synthesis pipeline) is outside this package's sources; its
label behaviour is pinned by the `TestPipeline_Options` /
`TestPipeline_Render` fixtures, which ARE part of the sources.  The
definitions below embed those fixtures verbatim, a spec-modelled stamping
rule following the claim's words, and a test-modelled stamping rule. -/

/-- Test fixture: the generated metadata labels the test driver passes to
`Render` (note the component value `test-component`). -/
def testMetadataLabels : List (String × String) :=
  [("openchoreo.org/component", "test-component"),
   ("openchoreo.org/environment", "dev")]

/-- Test fixture: expected labels of the rendered Deployment in the
"with custom annotations" case, where NO custom labels are supplied. -/
def expectedNoCustomLabels : List (String × String) :=
  [("openchoreo.org/component", "test-app"),
   ("openchoreo.org/environment", "dev")]

/-- Test fixture: expected labels in the "with custom labels" case
(`WithResourceLabels {custom: label}`). -/
def expectedCustomCaseLabels : List (String × String) :=
  [("custom", "label"),
   ("openchoreo.org/component", "test-app"),
   ("openchoreo.org/environment", "dev")]

/-- Modelled from the spec: C8's stamping rule — every generated document is
stamped with the generated metadata's labels, unless the caller supplies
custom labels, which pass through in addition. -/
def specStampedLabels (metadataLabels customLabels : List (String × String)) :
    List (String × String) :=
  if customLabels.isEmpty then metadataLabels else metadataLabels ++ customLabels

/-- Modelled from the test fixtures: `Render` stamps tracking labels derived
from the component name and the environment name, appended to any
caller-supplied custom labels. -/
def renderedTrackingLabels (componentName environmentName : String)
    (customLabels : List (String × String)) : List (String × String) :=
  customLabels ++
    [("openchoreo.org/component", componentName),
     ("openchoreo.org/environment", environmentName)]

/-- C8 counterexample: in the no-custom-labels fixture the claim's rule
would stamp the generated metadata's labels (component = `test-component`),
but the repository's own expected output labels the document with the
component's name `test-app` — the metadata labels are not what `Render`
stamps. -/
theorem render_labels_counterexample :
    specStampedLabels testMetadataLabels [] = testMetadataLabels ∧
    labelGet (specStampedLabels testMetadataLabels [])
      "openchoreo.org/component" = "test-component" ∧
    labelGet expectedNoCustomLabels "openchoreo.org/component" = "test-app" ∧
    specStampedLabels testMetadataLabels [] ≠ expectedNoCustomLabels := by
  refine ⟨rfl, rfl, rfl, by decide⟩

/-- C8 (amended): every rendered document is stamped with tracking labels
derived from the component name and environment name; caller-supplied custom
labels are added in addition to (not instead of) the tracking labels —
reproducing both `TestPipeline_Options` fixtures. -/
theorem render_labels_amended :
    renderedTrackingLabels "test-app" "dev" [("custom", "label")] =
      expectedCustomCaseLabels ∧
    renderedTrackingLabels "test-app" "dev" [] = expectedNoCustomLabels ∧
    (∀ componentName environmentName : String,
      renderedTrackingLabels componentName environmentName [] =
        [("openchoreo.org/component", componentName),
         ("openchoreo.org/environment", environmentName)]) := by
  exact ⟨rfl, rfl, fun _ _ => rfl⟩

end OpenChoreo
